import Mathlib

/-!
Verification of the lead-validation engine of `digital-leads` (src/main.go).

The core of the repository is `validateDataAgainstSchema`, a recursive
structural validator that walks a dynamic value (decoded JSON or BSON,
Go type `map[string]interface{}`) in lockstep with an equally dynamic
schema value. This file gives a shallow embedding of that engine: Go
dynamic values become the inductive type `Value`, Go maps become
association lists with first-match lookup, and each Go function becomes a
Lean function with the same name returning `none` for success and
`some errorMessage` for the error it would produce via `fmt.Errorf`.
-/

namespace DigitalLeads

/-- A Go dynamic value (`interface{}`) as the validator can observe it:
the shapes produced by JSON decoding plus the BSON-specific shapes the
source handles (`bson.M`, `time.Time`, `primitive.DateTime`,
`primitive.Timestamp`). The Go `int`, `int32` and `int64` cases collapse
into `int`, and `float32`/`float64` into `float`; the validator only ever
branches on these type tags, never on the numeric payload, so the payload
of `float` is kept as an `Int` index that distinguishes concrete values.
`time.Time`, `primitive.DateTime` and `primitive.Timestamp` payloads are
likewise never inspected, so those constructors carry none. `bson.M` is a
named Go map type: a type assertion to `map[string]interface{}` fails on
it, so it is kept apart from `obj`. -/
inductive Value : Type
  | null
  | bool (b : Bool)
  | int (n : Int)
  | float (rep : Int)
  | str (s : String)
  | arr (elems : List Value)
  | obj (fields : List (String × Value))
  | bsonM (fields : List (String × Value))
  | timeVal
  | bsonDateTime
  | bsonTimestamp
deriving Repr

/-- Go map indexing `m[k]`: association-list lookup, first match wins
(Go maps have unique keys, so any faithful list image is found the same
way). -/
def lookupVal : List (String × Value) → String → Option Value
  | [], _ => none
  | (k, v) :: rest, key => if k = key then some v else lookupVal rest key

/-- The comma-ok boolean type assertion `b, _ := v.(bool)` applied to a
map lookup: `false` when the key is absent or the value is not a Go
`bool`. -/
def asBool : Option Value → Bool
  | some (.bool b) => b
  | _ => false

/-- The comma-ok string type assertion `s, _ := v.(string)` applied to a
map lookup: the empty string when the key is absent or the value is not a
Go `string`. -/
def asString : Option Value → String
  | some (.str s) => s
  | _ => ""

/-- The single-quote character, used by every error message of the
source (`fmt.Errorf("required field .%s. is missing", ...)`). -/
def sq : String := String.mk [Char.ofNat 39]

/-- Read exactly two ASCII digits; returns their value and the rest of
the input (Go `getnum` with a fixed two-digit width). -/
def read2 : List Char → Option (Nat × List Char)
  | a :: b :: rest =>
    if a.isDigit ∧ b.isDigit then
      some ((a.toNat - 48) * 10 + (b.toNat - 48), rest)
    else none
  | _ => none

/-- Read exactly four ASCII digits (the Go layout element `2006`). -/
def read4 : List Char → Option (Nat × List Char)
  | a :: b :: c :: d :: rest =>
    if a.isDigit ∧ b.isDigit ∧ c.isDigit ∧ d.isDigit then
      some (((a.toNat - 48) * 10 + (b.toNat - 48)) * 100
              + (c.toNat - 48) * 10 + (d.toNat - 48), rest)
    else none
  | _ => none

/-- Gregorian leap-year rule, as in the Go `time` package. -/
def isLeapYear (y : Nat) : Bool := y % 4 == 0 && (y % 100 != 0 || y % 400 == 0)

/-- Number of days of month `m` in year `y` (Go `daysIn`). -/
def daysIn (m y : Nat) : Nat :=
  if m = 2 then (if isLeapYear y then 29 else 28)
  else if m = 4 ∨ m = 6 ∨ m = 9 ∨ m = 11 then 30
  else 31

/-- Parse the date part `YYYY-MM-DD` with the range checks Go
`time.Parse` performs: month 1-12 and day within the month, leap years
included. Returns the unconsumed input. -/
def readDate (cs : List Char) : Option (List Char) :=
  match read4 cs with
  | some (y, '-' :: cs1) =>
    match read2 cs1 with
    | some (mo, '-' :: cs2) =>
      match read2 cs2 with
      | some (d, cs3) =>
        if 1 ≤ mo ∧ mo ≤ 12 ∧ 1 ≤ d ∧ d ≤ daysIn mo y then some cs3 else none
      | _ => none
    | _ => none
  | _ => none

/-- Read one or two ASCII digits (Go `getnum` with `fixed` false): two
when the second character is also a digit, one otherwise. The hour
layout element `15` is parsed this way, so `time.Parse` accepts a
single-digit hour. -/
def readNum (cs : List Char) : Option (Nat × List Char) :=
  match cs with
  | a :: b :: rest =>
    if a.isDigit then
      if b.isDigit then some ((a.toNat - 48) * 10 + (b.toNat - 48), rest)
      else some (a.toNat - 48, b :: rest)
    else none
  | [a] => if a.isDigit then some (a.toNat - 48, []) else none
  | [] => none

/-- Parse the time part `HH:MM:SS` with Go range checks (hour 0-23,
minute and second 0-59). The hour accepts one or two digits (`getnum`
non-fixed); minutes and seconds are fixed two-digit elements. -/
def readTime (cs : List Char) : Option (List Char) :=
  match readNum cs with
  | some (h, ':' :: cs1) =>
    match read2 cs1 with
    | some (mi, ':' :: cs2) =>
      match read2 cs2 with
      | some (s, cs3) => if h ≤ 23 ∧ mi ≤ 59 ∧ s ≤ 59 then some cs3 else none
      | _ => none
    | _ => none
  | _ => none

/-- Optional fractional second. After parsing seconds, Go `time.Parse`
consumes a `.` or `,` followed by every consecutive digit, whether or
not the layout declares a fraction, and fails when more than nine digits
are present; with no separator-plus-digit ahead nothing is consumed. -/
def readFrac (cs : List Char) : Option (List Char) :=
  match cs with
  | c :: d :: rest =>
    if (c = '.' ∨ c = ',') ∧ d.isDigit then
      if ((d :: rest).takeWhile (fun x => x.isDigit)).length ≤ 9 then
        some ((d :: rest).dropWhile (fun x => x.isDigit))
      else none
    else some (c :: d :: rest)
  | other => some other

/-- Numeric zone offset for the layout element `Z07:00`: a literal `Z`,
or a sign followed by two digits, a colon and two digits. The general
parse path of Go does not range-check the offset. -/
def readOffset (cs : List Char) : Option (List Char) :=
  match cs with
  | 'Z' :: rest => some rest
  | c :: rest =>
    if c = '+' ∨ c = '-' then
      match read2 rest with
      | some (_, ':' :: cs1) =>
        match read2 cs1 with
        | some (_, cs2) => some cs2
        | _ => none
      | _ => none
    else none
  | [] => none

/-- Acceptance of the layout `2006-01-02`: the whole input is one date. -/
def matchesDateOnly (cs : List Char) : Bool := readDate cs = some []

/-- Acceptance of the layouts `2006-01-02 15:04:05` and
`2006-01-02T15:04:05` (parameterised by the separator), including the
unsolicited fractional second Go accepts after the seconds element. -/
def matchesDateTime (sep : Char) (cs : List Char) : Bool :=
  match readDate cs with
  | some (c :: cs1) =>
    if c = sep then
      match readTime cs1 with
      | some cs2 =>
        match readFrac cs2 with
        | some cs3 => cs3.isEmpty
        | none => false
      | none => false
    else false
  | _ => false

/-- Acceptance of the layout `2006-01-02T15:04:05Z07:00`, the Go
constant `time.RFC3339`; with the optional fractional second this is
also exactly what `time.RFC3339Nano` accepts under `time.Parse`. -/
def matchesRFC3339 (cs : List Char) : Bool :=
  match readDate cs with
  | some ('T' :: cs1) =>
    match readTime cs1 with
    | some cs2 =>
      match readFrac cs2 with
      | some cs3 =>
        match readOffset cs3 with
        | some cs4 => cs4.isEmpty
        | none => false
      | none => false
    | none => false
  | _ => false

/-- Translation of `isValidISODateString` (src/main.go): the string
parses under one of the layouts `time.RFC3339`, `time.RFC3339Nano`,
`2006-01-02`, `2006-01-02 15:04:05`, `2006-01-02T15:04:05`,
`2006-01-02T15:04:05Z07:00`. The first, second and sixth layouts accept
the same strings (the sixth is the RFC3339 constant spelled out, and
`time.Parse` consumes a fractional second even when the layout lacks
one), so three matchers cover the list. -/
def isValidISODateString (s : String) : Bool :=
  matchesRFC3339 s.toList || matchesDateOnly s.toList
    || matchesDateTime ' ' s.toList || matchesDateTime 'T' s.toList

/-- Success condition of `strconv.ParseInt(s, 10, 64)`: an optional
sign, then at least one digit and nothing else, with the signed value
fitting in 64 bits. -/
def goParseInt64Ok (s : String) : Bool :=
  let cs := s.toList
  let signAndDigits : Bool × List Char :=
    match cs with
    | '+' :: rest => (false, rest)
    | '-' :: rest => (true, rest)
    | other => (false, other)
  match signAndDigits with
  | (neg, ds) =>
    if ds.isEmpty then false
    else if ds.all (fun c => c.isDigit) then
      if neg then ds.foldl (fun acc c => acc * 10 + (c.toNat - 48)) 0 ≤ 2 ^ 63
      else ds.foldl (fun acc c => acc * 10 + (c.toNat - 48)) 0 ≤ 2 ^ 63 - 1
    else false

/-- Translation of `validateFieldType` (src/main.go): classify `value`
against the declared type string; `none` is success, `some msg` is the
error message the Go function returns. A `nil` value is handled before
the type switch; an expected type outside the switch cases (including
the empty string that a schema entry without a `type` key produces)
falls through the switch and succeeds. -/
def validateFieldType (fieldName : String) (value : Value) (expectedType : String) : Option String :=
  match value with
  | .null =>
    if expectedType = "null" then none
    else some ("field " ++ sq ++ fieldName ++ sq ++ " must not be null")
  | _ =>
    match expectedType with
    | "string" =>
      match value with
      | .str _ => none
      | _ => some ("field " ++ sq ++ fieldName ++ sq ++ " must be a string")
    | "number" =>
      match value with
      | .int _ => none
      | .float _ => none
      | _ => some ("field " ++ sq ++ fieldName ++ sq ++ " must be a number")
    | "double" =>
      match value with
      | .float _ => none
      | _ => some ("field " ++ sq ++ fieldName ++ sq ++ " must be a double (floating-point)")
    | "boolean" | "bool" =>
      match value with
      | .bool _ => none
      | _ => some ("field " ++ sq ++ fieldName ++ sq ++ " must be a boolean")
    | "array" =>
      match value with
      | .arr _ => none
      | _ => some ("field " ++ sq ++ fieldName ++ sq ++ " must be an array")
    | "object" =>
      match value with
      | .obj _ => none
      | _ => some ("field " ++ sq ++ fieldName ++ sq ++ " must be an object")
    | "null" => some ("field " ++ sq ++ fieldName ++ sq ++ " must be null")
    | "date" =>
      match value with
      | .timeVal => none
      | .bsonDateTime => none
      | .str s =>
        if isValidISODateString s then none
        else some ("field " ++ sq ++ fieldName ++ sq ++ " must be a valid ISO date string (e.g., RFC3339)")
      | _ => some ("field " ++ sq ++ fieldName ++ sq ++ " must be a date (time.Time, primitive.DateTime, or ISO string)")
    | "timestamp" =>
      match value with
      | .bsonTimestamp => none
      | .int _ => none
      | .float _ => none
      | .str s =>
        if goParseInt64Ok s then none
        else some ("field " ++ sq ++ fieldName ++ sq ++ " must be a numeric string representing a timestamp")
      | _ => some ("field " ++ sq ++ fieldName ++ sq ++ " must be a timestamp (integer, numeric string, or primitive.Timestamp)")
    | _ => none

/-- The nested-schema extraction step of `validateDataAgainstSchema`:
a `properties` key holding a `map[string]interface{}` wins, otherwise a
`schema` key holding one is used. A `bson.M`-shaped entry fails the Go
type assertion and is ignored. -/
def nestedSchemaOf (fieldInfo : List (String × Value)) : Option (List (String × Value)) :=
  match lookupVal fieldInfo "properties" with
  | some (.obj ns) => some ns
  | _ =>
    match lookupVal fieldInfo "schema" with
    | some (.obj ns) => some ns
    | _ => none

/-- Translation of `validateDataAgainstSchema` (src/main.go): iterate
over the schema entries; a schema entry that is not a mapping is
skipped; a missing required field, a type mismatch, or a nested failure
stops the walk with that error. `none` is success. Go iterates the
schema map in unspecified order; the model iterates the association
list front to back. -/
def validateDataAgainstSchema (data : List (String × Value)) : List (String × Value) → Option String
  | [] => none
  | (field, fieldSchema) :: rest =>
    match fieldSchema with
    | .obj fieldInfo =>
      match lookupVal data field with
      | none =>
        if asBool (lookupVal fieldInfo "required") then
          some ("required field " ++ sq ++ field ++ sq ++ " is missing")
        else validateDataAgainstSchema data rest
      | some value =>
        match validateFieldType field value (asString (lookupVal fieldInfo "type")) with
        | some err => some err
        | none =>
          if asString (lookupVal fieldInfo "type") = "object" then
            match hns : nestedSchemaOf fieldInfo with
            | some ns =>
              match value with
              | .obj objMap =>
                match validateDataAgainstSchema objMap ns with
                | some err =>
                  some ("object field " ++ sq ++ field ++ sq ++ " validation failed: " ++ err)
                | none => validateDataAgainstSchema data rest
              | .bsonM bm =>
                match validateDataAgainstSchema bm ns with
                | some err =>
                  some ("object field " ++ sq ++ field ++ sq ++ " validation failed: " ++ err)
                | none => validateDataAgainstSchema data rest
              | _ => some ("field " ++ sq ++ field ++ sq ++ " must be an object for nested validation")
            | none => validateDataAgainstSchema data rest
          else validateDataAgainstSchema data rest
    | _ => validateDataAgainstSchema data rest
termination_by schema => sizeOf schema
decreasing_by
  all_goals simp only [List.cons.sizeOf_spec, Prod.mk.sizeOf_spec, Value.obj.sizeOf_spec]
  all_goals first
    | omega
    | (have key : ∀ (l : List (String × Value)) (k : String) (v : Value),
           lookupVal l k = some v → sizeOf v < sizeOf l := by
         intro l k v h
         induction l with
         | nil => simp [lookupVal] at h
         | cons hd tl ih =>
           obtain ⟨k2, v2⟩ := hd
           simp only [lookupVal] at h
           split at h
           · cases h
             simp only [List.cons.sizeOf_spec, Prod.mk.sizeOf_spec]
             omega
           · have := ih h
             simp only [List.cons.sizeOf_spec, Prod.mk.sizeOf_spec]
             omega
       have key2 : ∀ (info ns2 : List (String × Value)),
           nestedSchemaOf info = some ns2 → sizeOf ns2 < sizeOf info := by
         intro info ns2 h2
         unfold nestedSchemaOf at h2
         split at h2
         · rename_i heq
           cases h2
           have := key _ _ _ heq
           simp only [Value.obj.sizeOf_spec] at this
           omega
         · split at h2
           · rename_i heq
             cases h2
             have := key _ _ _ heq
             simp only [Value.obj.sizeOf_spec] at this
             omega
           · cases h2
       have hlt := key2 _ _ hns
       omega)

/-- The loop body of `validateDataAgainstSchema` for a single schema
entry: the error this entry alone contributes (`none` when the entry is
skipped or its checks pass). Nested objects recurse into the full
validator exactly as the source does. -/
def checkField (data : List (String × Value)) : String × Value → Option String
  | (field, fieldSchema) =>
    match fieldSchema with
    | .obj fieldInfo =>
      match lookupVal data field with
      | none =>
        if asBool (lookupVal fieldInfo "required") then
          some ("required field " ++ sq ++ field ++ sq ++ " is missing")
        else none
      | some value =>
        match validateFieldType field value (asString (lookupVal fieldInfo "type")) with
        | some err => some err
        | none =>
          if asString (lookupVal fieldInfo "type") = "object" then
            match nestedSchemaOf fieldInfo with
            | some ns =>
              match value with
              | .obj objMap =>
                (validateDataAgainstSchema objMap ns).map
                  (fun err => "object field " ++ sq ++ field ++ sq ++ " validation failed: " ++ err)
              | .bsonM bm =>
                (validateDataAgainstSchema bm ns).map
                  (fun err => "object field " ++ sq ++ field ++ sq ++ " validation failed: " ++ err)
              | _ => some ("field " ++ sq ++ field ++ sq ++ " must be an object for nested validation")
            | none => none
          else none
    | _ => none

/-- `checkField` with the defensive fallback arm of the nested-object
branch replaced by success: where the source would return
"field f must be an object for nested validation", this returns `none`.
Comparing the two functions expresses that the branch is dead code. -/
def checkFieldNoFallback (data : List (String × Value)) : String × Value → Option String
  | (field, fieldSchema) =>
    match fieldSchema with
    | .obj fieldInfo =>
      match lookupVal data field with
      | none =>
        if asBool (lookupVal fieldInfo "required") then
          some ("required field " ++ sq ++ field ++ sq ++ " is missing")
        else none
      | some value =>
        match validateFieldType field value (asString (lookupVal fieldInfo "type")) with
        | some err => some err
        | none =>
          if asString (lookupVal fieldInfo "type") = "object" then
            match nestedSchemaOf fieldInfo with
            | some ns =>
              match value with
              | .obj objMap =>
                (validateDataAgainstSchema objMap ns).map
                  (fun err => "object field " ++ sq ++ field ++ sq ++ " validation failed: " ++ err)
              | .bsonM bm =>
                (validateDataAgainstSchema bm ns).map
                  (fun err => "object field " ++ sq ++ field ++ sq ++ " validation failed: " ++ err)
              | _ => none
            | none => none
          else none
    | _ => none

/-- The validator walk rebuilt from `checkFieldNoFallback`: identical to
`validateDataAgainstSchema` except that the unreachable defensive arm is
gone. -/
def validateNoFallback (data : List (String × Value)) : List (String × Value) → Option String
  | [] => none
  | e :: rest =>
    match checkFieldNoFallback data e with
    | some err => some err
    | none => validateNoFallback data rest

/-- The empty schema validates every data object. -/
theorem validate_nil (data : List (String × Value)) :
    validateDataAgainstSchema data [] = none := by
  simp [validateDataAgainstSchema]

/-- Unfolding of the validator walk: one entry is checked, and on
success the walk continues with the remaining entries. -/
theorem validate_cons (data : List (String × Value)) (e : String × Value)
    (rest : List (String × Value)) :
    validateDataAgainstSchema data (e :: rest) =
      match checkField data e with
      | some err => some err
      | none => validateDataAgainstSchema data rest := by
  obtain ⟨field, fieldSchema⟩ := e
  cases fieldSchema <;>
    simp only [validateDataAgainstSchema, checkField] <;>
    try rfl
  rename_i fieldInfo
  cases hl : lookupVal data field with
  | none =>
    by_cases hreq : asBool (lookupVal fieldInfo "required") <;> simp [hreq]
  | some value =>
    cases hft : validateFieldType field value (asString (lookupVal fieldInfo "type")) with
    | some err => simp [hft]
    | none =>
      simp only [hft]
      by_cases hobj : asString (lookupVal fieldInfo "type") = "object"
      · simp only [if_pos hobj]
        split
        · rename_i ns hns
          rw [hns]
          cases value <;> try rfl
          all_goals (rename_i m; cases h : validateDataAgainstSchema m ns <;> simp [h])
        · rename_i heq
          rw [heq]
      · simp only [if_neg hobj]

/-- C1: for every schema and every data object whose per-field checks
all succeed — each field declared by a mapping-shaped schema entry is
either optional and absent, or present with a value of the declared
kind whose nested validation (for object kinds) also succeeds — the
validator returns success: the walk has no other failure source. -/
theorem valid_data_passes (data schema : List (String × Value))
    (h : ∀ e ∈ schema, checkField data e = none) :
    validateDataAgainstSchema data schema = none := by
  induction schema with
  | nil => exact validate_nil data
  | cons e rest ih =>
    rw [validate_cons, h e (List.mem_cons_self e rest)]
    exact ih (fun x hx => h x (List.mem_cons_of_mem e hx))

/-- C1 witness: a five-kind schema (string, number, array, date and a
nested object) and a conforming data object validate successfully. -/
theorem valid_data_passes_witness :
    (∀ e ∈ [("name", Value.obj [("type", Value.str "string"), ("required", Value.bool true)]),
            ("age", Value.obj [("type", Value.str "number")]),
            ("tags", Value.obj [("type", Value.str "array")]),
            ("signup", Value.obj [("type", Value.str "date")]),
            ("info", Value.obj [("type", Value.str "object"),
              ("properties", Value.obj [("email", Value.obj [("type", Value.str "string"), ("required", Value.bool true)])])])],
        checkField [("name", Value.str "Jane"), ("age", Value.int 30),
            ("tags", Value.arr [Value.str "a"]), ("signup", Value.str "2024-08-09"),
            ("info", Value.obj [("email", Value.str "jane@example.com")])] e = none)
    ∧ validateDataAgainstSchema
        [("name", Value.str "Jane"), ("age", Value.int 30),
         ("tags", Value.arr [Value.str "a"]), ("signup", Value.str "2024-08-09"),
         ("info", Value.obj [("email", Value.str "jane@example.com")])]
        [("name", Value.obj [("type", Value.str "string"), ("required", Value.bool true)]),
         ("age", Value.obj [("type", Value.str "number")]),
         ("tags", Value.obj [("type", Value.str "array")]),
         ("signup", Value.obj [("type", Value.str "date")]),
         ("info", Value.obj [("type", Value.str "object"),
           ("properties", Value.obj [("email", Value.obj [("type", Value.str "string"), ("required", Value.bool true)])])])]
        = none := by
  have h : ∀ e ∈ [("name", Value.obj [("type", Value.str "string"), ("required", Value.bool true)]),
            ("age", Value.obj [("type", Value.str "number")]),
            ("tags", Value.obj [("type", Value.str "array")]),
            ("signup", Value.obj [("type", Value.str "date")]),
            ("info", Value.obj [("type", Value.str "object"),
              ("properties", Value.obj [("email", Value.obj [("type", Value.str "string"), ("required", Value.bool true)])])])],
        checkField [("name", Value.str "Jane"), ("age", Value.int 30),
            ("tags", Value.arr [Value.str "a"]), ("signup", Value.str "2024-08-09"),
            ("info", Value.obj [("email", Value.str "jane@example.com")])] e = none := by
    intro e he
    fin_cases he <;>
      first
        | decide
        | simp [checkField, lookupVal, asString, asBool, validateFieldType,
            nestedSchemaOf, validate_cons, validate_nil]
  exact ⟨h, valid_data_passes _ _ h⟩

/-- C2: a required schema field absent from the data fails with the
message "required field f is missing" as soon as the walk reaches it
(any entries checked before it passing); an absent field that is not
required contributes no error; and the concrete scenario of the spec —
schema with required string name and optional number age, data holding
only age 25 — produces exactly the missing-name error. -/
theorem required_field_missing :
    (∀ (data pre post : List (String × Value)) (f : String) (info : List (String × Value)),
        asBool (lookupVal info "required") = true →
        lookupVal data f = none →
        (∀ e ∈ pre, checkField data e = none) →
        validateDataAgainstSchema data (pre ++ (f, Value.obj info) :: post)
          = some ("required field " ++ sq ++ f ++ sq ++ " is missing"))
    ∧ (∀ (data : List (String × Value)) (f : String) (info : List (String × Value)),
        asBool (lookupVal info "required") = false →
        lookupVal data f = none →
        checkField data (f, Value.obj info) = none)
    ∧ validateDataAgainstSchema [("age", Value.float 25)]
        [("name", Value.obj [("type", Value.str "string"), ("required", Value.bool true)]),
         ("age", Value.obj [("type", Value.str "number"), ("required", Value.bool false),
           ("minimum", Value.float 0)])]
        = some ("required field " ++ sq ++ "name" ++ sq ++ " is missing") := by
  refine ⟨?_, ?_, ?_⟩
  · intro data pre post f info hreq habs hpre
    induction pre with
    | nil =>
      rw [List.nil_append, validate_cons]
      simp [checkField, habs, hreq]
    | cons e rest ih =>
      rw [List.cons_append, validate_cons, hpre e (List.mem_cons_self e rest)]
      exact ih (fun x hx => hpre x (List.mem_cons_of_mem e hx))
  · intro data f info hreq habs
    simp [checkField, habs, hreq]
  · simp [validate_cons, validate_nil, checkField, lookupVal, asBool, asString,
      validateFieldType]

/-- C2 witness: with one passing entry ahead of it, the missing required
field name is reported. -/
theorem required_field_missing_witness :
    validateDataAgainstSchema [("age", Value.float 25)]
      ([("age", Value.obj [("type", Value.str "number")])]
        ++ ("name", Value.obj [("required", Value.bool true)]) :: [])
      = some ("required field " ++ sq ++ "name" ++ sq ++ " is missing") :=
  required_field_missing.1 [("age", Value.float 25)]
    [("age", Value.obj [("type", Value.str "number")])] []
    "name" [("required", Value.bool true)]
    (by decide) (by rfl) (by decide)

/-- C3: the source implements no constraint checking whatsoever — the
per-field check reads only the keys required, type, properties and
schema of a schema entry, so prepending any other key (minimum,
maximum, pattern, minLength, maxLength, ...) leaves its outcome
unchanged — and on the concrete scenario of the spec (schema declaring
minimum 0 on the number field age, data with age equal to minus 5) the
validator succeeds instead of reporting a minimum-constraint
violation. -/
theorem minimum_constraint_not_enforced :
    (∀ (data : List (String × Value)) (f k : String) (v : Value) (info : List (String × Value)),
        k ≠ "required" → k ≠ "type" → k ≠ "properties" → k ≠ "schema" →
        checkField data (f, Value.obj ((k, v) :: info)) = checkField data (f, Value.obj info))
    ∧ validateDataAgainstSchema [("name", Value.str "Jane"), ("age", Value.float (-5))]
        [("name", Value.obj [("type", Value.str "string"), ("required", Value.bool true)]),
         ("age", Value.obj [("type", Value.str "number"), ("required", Value.bool false),
           ("minimum", Value.float 0)])]
        = none := by
  constructor
  · intro data f k v info h1 h2 h3 h4
    have l1 : lookupVal ((k, v) :: info) "required" = lookupVal info "required" := by
      simp [lookupVal, h1]
    have l2 : lookupVal ((k, v) :: info) "type" = lookupVal info "type" := by
      simp [lookupVal, h2]
    have l3 : nestedSchemaOf ((k, v) :: info) = nestedSchemaOf info := by
      simp [nestedSchemaOf, lookupVal, h3, h4]
    simp only [checkField, l1, l2, l3]
  · simp [validate_cons, validate_nil, checkField, lookupVal, asBool, asString,
      validateFieldType]

/-- C3 witness: a minimum key on a number field can be dropped without
changing the outcome of its check. -/
theorem minimum_constraint_not_enforced_witness :
    checkField [("age", Value.float (-5))]
        ("age", Value.obj (("minimum", Value.float 0) :: [("type", Value.str "number")]))
      = checkField [("age", Value.float (-5))]
        ("age", Value.obj [("type", Value.str "number")]) :=
  minimum_constraint_not_enforced.1 [("age", Value.float (-5))] "age" "minimum"
    (Value.float 0) [("type", Value.str "number")]
    (by decide) (by decide) (by decide) (by decide)

/-- C4: the array case of `validateFieldType` only checks that the value
is a slice and never looks at the elements or at the items spec, so the
array of the spec scenario with a number at index 2 under items string
validates successfully instead of failing at index 2. -/
theorem array_items_not_validated :
    (∀ (f : String) (elems : List Value), validateFieldType f (Value.arr elems) "array" = none)
    ∧ validateDataAgainstSchema
        [("interests", Value.arr [Value.str "tech", Value.str "sales", Value.float 42])]
        [("interests", Value.obj [("type", Value.str "array"), ("required", Value.bool false),
          ("items", Value.str "string")])]
        = none := by
  constructor
  · intro f elems
    rfl
  · simp [validate_cons, validate_nil, checkField, lookupVal, asBool, asString,
      validateFieldType]

/-- C5: no schema-of-schema validation exists in the source —
`CreateProduct` and `UpdateProduct` persist the submitted schema without
inspecting it — so a malformed schema (a field name starting with a
dollar sign and containing a dot, an array kind without items, an
unrecognized kind) reaches lead validation, where it is consumed
permissively: the array entry accepts any array and the unknown kind
falls through the type switch and accepts any non-null value. -/
theorem schema_definition_not_validated :
    validateDataAgainstSchema [("$bad.name", Value.arr [])]
        [("$bad.name", Value.obj [("type", Value.str "array")])] = none
    ∧ validateDataAgainstSchema [("x", Value.str "v")]
        [("x", Value.obj [("type", Value.str "wibble"), ("required", Value.bool true)])] = none := by
  constructor <;>
    simp [validate_cons, validate_nil, checkField, lookupVal, asBool, asString,
      validateFieldType]

/-- C6: for an object-kind field the nested schema is taken from the
properties key when that key holds a mapping (regardless of a schema
key), from the schema key otherwise; the data value — already known to
be an object — is validated recursively against it, and a nested error
comes back wrapped as "object field f validation failed: inner"; on the
concrete scenario (required nested first_name omitted) the wrapped
missing-required-field error is produced. -/
theorem nested_object_validation :
    (∀ (info ns1 : List (String × Value)),
        lookupVal info "properties" = some (Value.obj ns1) → nestedSchemaOf info = some ns1)
    ∧ (∀ (info ns2 : List (String × Value)),
        lookupVal info "properties" = none → lookupVal info "schema" = some (Value.obj ns2) →
        nestedSchemaOf info = some ns2)
    ∧ (∀ (data : List (String × Value)) (f : String) (info m ns : List (String × Value)) (err : String),
        lookupVal data f = some (Value.obj m) →
        asString (lookupVal info "type") = "object" →
        nestedSchemaOf info = some ns →
        validateDataAgainstSchema m ns = some err →
        checkField data (f, Value.obj info)
          = some ("object field " ++ sq ++ f ++ sq ++ " validation failed: " ++ err))
    ∧ validateDataAgainstSchema
        [("user_info", Value.obj [])]
        [("user_info", Value.obj [("type", Value.str "object"), ("required", Value.bool true),
          ("properties", Value.obj [("first_name",
            Value.obj [("type", Value.str "string"), ("required", Value.bool true)])])])]
        = some ("object field " ++ sq ++ "user_info" ++ sq ++ " validation failed: "
            ++ ("required field " ++ sq ++ "first_name" ++ sq ++ " is missing")) := by
  refine ⟨?_, ?_, ?_, ?_⟩
  · intro info ns1 h
    simp [nestedSchemaOf, h]
  · intro info ns2 h1 h2
    simp [nestedSchemaOf, h1, h2]
  · intro data f info m ns err hd ht hns hv
    have hft : validateFieldType f (Value.obj m) (asString (lookupVal info "type")) = none := by
      rw [ht]; rfl
    simp [checkField, hd, hft, ht, hns, hv]
    rfl
  · simp [validate_cons, validate_nil, checkField, lookupVal, asBool, asString,
      validateFieldType, nestedSchemaOf]

/-- C6 witness: a nested missing-required-field error is wrapped with
the object field name. -/
theorem nested_object_validation_witness :
    checkField [("user_info", Value.obj [])]
      ("user_info", Value.obj [("type", Value.str "object"),
        ("properties", Value.obj [("first_name",
          Value.obj [("type", Value.str "string"), ("required", Value.bool true)])])])
      = some ("object field " ++ sq ++ "user_info" ++ sq ++ " validation failed: "
          ++ ("required field " ++ sq ++ "first_name" ++ sq ++ " is missing")) :=
  nested_object_validation.2.2.1
    [("user_info", Value.obj [])] "user_info"
    [("type", Value.str "object"),
     ("properties", Value.obj [("first_name",
       Value.obj [("type", Value.str "string"), ("required", Value.bool true)])])]
    [] [("first_name", Value.obj [("type", Value.str "string"), ("required", Value.bool true)])]
    ("required field " ++ sq ++ "first_name" ++ sq ++ " is missing")
    (by rfl) (by rfl) (by rfl)
    (by simp [validate_cons, validate_nil, checkField, lookupVal, asBool, asString,
      validateFieldType])

/-- C8: the validator is total by construction, a schema entry whose
value is not a mapping is skipped — removing it from the schema does
not change the result — and classification of any value against any
declared kind yields success or an error, never anything else. -/
theorem nonmapping_schema_entries_skipped :
    (∀ (data pre post : List (String × Value)) (f : String) (v : Value),
        (∀ m : List (String × Value), v ≠ Value.obj m) →
        validateDataAgainstSchema data (pre ++ (f, v) :: post)
          = validateDataAgainstSchema data (pre ++ post))
    ∧ (∀ (fieldName t : String) (v : Value),
        validateFieldType fieldName v t = none
          ∨ ∃ msg, validateFieldType fieldName v t = some msg) := by
  constructor
  · intro data pre post f v hv
    induction pre with
    | nil =>
      rw [List.nil_append, List.nil_append, validate_cons]
      have hskip : checkField data (f, v) = none := by
        cases v <;> first
          | rfl
          | exact absurd rfl (hv _)
      rw [hskip]
    | cons e rest ih =>
      rw [List.cons_append, List.cons_append, validate_cons, validate_cons, ih]
  · intro fieldName t v
    cases h : validateFieldType fieldName v t with
    | none => exact Or.inl rfl
    | some msg => exact Or.inr ⟨msg, rfl⟩

/-- C8 witness: a schema entry holding a list instead of a mapping is
ignored: validation with and without it agree on a concrete input. -/
theorem nonmapping_schema_entries_skipped_witness :
    validateDataAgainstSchema [("a", Value.str "x")]
        (("weird", Value.arr [Value.str "s"]) :: [("a", Value.obj [("type", Value.str "string")])])
      = validateDataAgainstSchema [("a", Value.str "x")]
        [("a", Value.obj [("type", Value.str "string")])] :=
  nonmapping_schema_entries_skipped.1 [("a", Value.str "x")] []
    [("a", Value.obj [("type", Value.str "string")])] "weird" (Value.arr [Value.str "s"])
    (fun m h => Value.noConfusion h)

/-- C9: the validator reads the data object only at the field names of
the schema entries: two data objects that agree (as lookups) on every
schema entry name validate identically, so undeclared data fields are
ignored and never cause a failure. -/
theorem validation_reads_only_declared_fields
    (S D E : List (String × Value))
    (h : ∀ e ∈ S, lookupVal D e.1 = lookupVal E e.1) :
    validateDataAgainstSchema D S = validateDataAgainstSchema E S := by
  induction S with
  | nil => rw [validate_nil, validate_nil]
  | cons e rest ih =>
    rw [validate_cons, validate_cons]
    have hcheck : checkField D e = checkField E e := by
      obtain ⟨f, fs⟩ := e
      have hf := h (f, fs) (List.mem_cons_self _ _)
      cases fs <;> simp only [checkField]
      rw [hf]
    rw [hcheck]
    cases checkField E e with
    | some err => rfl
    | none => exact ih (fun x hx => h x (List.mem_cons_of_mem e hx))

/-- C9 witness: two data objects differing only in a field the schema
does not declare validate identically. -/
theorem validation_reads_only_declared_fields_witness :
    (∀ e ∈ [("name", Value.obj [("type", Value.str "string"), ("required", Value.bool true)])],
        lookupVal [("name", Value.str "Jane"), ("extra", Value.float 1)] e.1
          = lookupVal [("name", Value.str "Jane"), ("other", Value.bool true)] e.1)
    ∧ validateDataAgainstSchema [("name", Value.str "Jane"), ("extra", Value.float 1)]
        [("name", Value.obj [("type", Value.str "string"), ("required", Value.bool true)])]
      = validateDataAgainstSchema [("name", Value.str "Jane"), ("other", Value.bool true)]
        [("name", Value.obj [("type", Value.str "string"), ("required", Value.bool true)])] := by
  have h : ∀ e ∈ [("name", Value.obj [("type", Value.str "string"), ("required", Value.bool true)])],
      lookupVal [("name", Value.str "Jane"), ("extra", Value.float 1)] e.1
        = lookupVal [("name", Value.str "Jane"), ("other", Value.bool true)] e.1 := by
    intro e he
    fin_cases he
    rfl
  exact ⟨h, validation_reads_only_declared_fields _ _ _ h⟩

/-- C10: the defensive fallback "field f must be an object for nested
validation" is dead code: the nested-object branch runs only after the
type check for the object kind succeeded, which forces the value to be
a map, so the per-field check and the whole validator coincide with the
variants in which that arm is replaced by success. -/
theorem nested_fallback_unreachable :
    (∀ (data : List (String × Value)) (e : String × Value),
        checkField data e = checkFieldNoFallback data e)
    ∧ (∀ (data schema : List (String × Value)),
        validateDataAgainstSchema data schema = validateNoFallback data schema) := by
  have hcf : ∀ (data : List (String × Value)) (e : String × Value),
      checkField data e = checkFieldNoFallback data e := by
    intro data e
    obtain ⟨f, fs⟩ := e
    cases fs <;> try rfl
    rename_i info
    simp only [checkField, checkFieldNoFallback]
    cases hl : lookupVal data f with
    | none => rfl
    | some value =>
      cases hft : validateFieldType f value (asString (lookupVal info "type")) with
      | some err => simp [hft]
      | none =>
        simp only [hft]
        by_cases ht : asString (lookupVal info "type") = "object"
        · simp only [if_pos ht]
          cases hns : nestedSchemaOf info with
          | none => rfl
          | some ns =>
            rw [ht] at hft
            cases value <;> simp [validateFieldType] at hft <;> rfl
        · simp only [if_neg ht]
  constructor
  · exact hcf
  · intro data schema
    induction schema with
    | nil => rw [validate_nil]; rfl
    | cons e rest ih =>
      rw [validate_cons, hcf data e]
      simp only [validateNoFallback]
      cases checkFieldNoFallback data e with
      | some err => rfl
      | none => exact ih

end DigitalLeads
